import Mathlib

/-!
Verification development for the report generator in plot.py.

The program reads a recorded simulation run from an output directory
(output.json: meta, history, init; plus a companion config.yaml), reshapes
the per-month history into global, per-neighborhood and per-landlord series,
renders a set of charts into a fresh plots/ subdirectory, and accumulates the
chart filenames for an HTML index.

Python dicts are modelled as insertion-ordered association lists over String
keys; defaultdict(list) access and append are modelled explicitly; numeric
stat values are modelled as integers (the program performs no arithmetic on
them beyond plotting; the percentile positions drawn on the init histograms
are a numeric rendering detail and are recorded here by their legend labels).
File-system interaction is modelled by a directory state: presence and
parse status of output.json and config.yaml, and whether plots/ exists.
-/

set_option maxHeartbeats 1000000

namespace DomaPlot

/-- Model of a Python dict with string keys: an insertion-ordered
association list. Dicts parsed from JSON have unique keys. -/
abbrev Dict (α : Type) : Type := List (String × α)

/-- Python dict lookup: value bound to key k (first binding). -/
def alFind {α : Type} : Dict α → String → Option α
  | [], _ => none
  | (k', v) :: rest, k => if k' = k then some v else alFind rest k

/-- Python dict assignment d[k] = v for a key known to be present:
rewrite the binding of k in place, preserving insertion order. -/
def alSet {α : Type} (d : Dict α) (k : String) (v : α) : Dict α :=
  d.map (fun p => if p.1 = k then (p.1, v) else p)

/-- Python `del d[k]`: remove the binding of k. -/
def alDel {α : Type} (d : Dict α) (k : String) : Dict α :=
  d.filter (fun p => p.1 ≠ k)

/-- defaultdict(list) append, `d[k].append(v)`: extend the existing series
in place, or insert a fresh one-element series at the end of the dict. -/
def ddAppend {α : Type} (d : Dict (List α)) (k : String) (v : α) : Dict (List α) :=
  match alFind d k with
  | some _ => d.map (fun p => if p.1 = k then (p.1, p.2 ++ [v]) else p)
  | none => d ++ [(k, [v])]

/-- defaultdict(list) read access `d[k]`: return the existing series, or
insert and return an empty one (this is how plot.py's fixed rent and fund
keys enter `stats` even when absent from the history). -/
def ddGet {α : Type} (d : Dict (List α)) (k : String) : List α × Dict (List α) :=
  match alFind d k with
  | some v => (v, d)
  | none => ([], d ++ [(k, [])])

/-- Nested defaultdict append, `d[k][id].append(v)` on a
defaultdict(lambda: defaultdict(list)). -/
def dd2Append {α : Type} (d : Dict (Dict (List α))) (k id : String) (v : α) :
    Dict (Dict (List α)) :=
  match alFind d k with
  | some inner => alSet d k (ddAppend inner id v)
  | none => d ++ [(k, [(id, [v])])]

/-- Two-level lookup d[k][id] on the nested series structure. -/
def find2 {α : Type} (d : Dict (Dict (List α))) (k id : String) : Option (List α) :=
  match alFind d k with
  | some inner => alFind inner id
  | none => none

/-- One month of the recorded history, as stored in output.json: the
`neighborhoods` and `landlords` sub-objects (entity id to stat mapping)
plus the remaining scalar stat fields. -/
structure Month where
  neighborhoods : Dict (Dict Int)
  landlords : Dict (Dict Int)
  scalars : Dict Int
deriving DecidableEq

/-- The parsed content of output.json. `meta` is consumed structurally only
through its `neighborhoods` sub-mapping (id to an object carrying a display
`name`); that sub-mapping may be absent, in which case meta lookup fails. -/
structure OutputJson where
  metaNeighborhoods : Option (Dict (Dict String))
  history : List Month
  init : Dict (List Int)
deriving DecidableEq

/-- Error taxonomy of a run. -/
inductive Err where
  | alreadyExists
  | ioMissing (path : String)
  | formatError (path : String)
  | keyError (key : String)
deriving DecidableEq

/-- One plotted line: optional legend label, optional explicit color, and
the y-series (x is always range(len(ys))). -/
structure PlotLine where
  label : Option String
  color : Option String
  ys : List Int
deriving DecidableEq

/-- A rendered chart: an init histogram (data plus percentile legend
labels), or a line chart with a legend flag. -/
inductive Chart where
  | hist (title : String) (vals : List Int) (marks : List String)
  | line (title : String) (lns : List PlotLine) (legend : Bool)
deriving DecidableEq

/-- The lines of a chart (a histogram has none). -/
def Chart.lines : Chart → List PlotLine
  | .hist _ _ _ => []
  | .line _ ls _ => ls

/-! ## Stat reshaper (plot.py lines 22-39) -/

/-- One month of the nested reshape loop: for (id, sts) in month:
for (k, v) in sts: nested[k][id].append(v). -/
def addNestedMonth (d : Dict (Dict (List Int))) (m : Dict (Dict Int)) :
    Dict (Dict (List Int)) :=
  m.foldl (fun d p => p.2.foldl (fun d q => dd2Append d q.1 p.1 q.2) d) d

/-- The nested per-entity series built from the popped sub-objects of every
month, stat key to entity id to series. -/
def buildNested (months : List (Dict (Dict Int))) : Dict (Dict (List Int)) :=
  months.foldl addNestedMonth []

/-- One month of the scalar loop: for (k, v) in month: stats[k].append(v). -/
def addScalarMonth (d : Dict (List Int)) (m : Dict Int) : Dict (List Int) :=
  m.foldl (fun d q => ddAppend d q.1 q.2) d

/-- The global scalar series accumulated over the history. -/
def buildStats (months : List (Dict Int)) : Dict (List Int) :=
  months.foldl addScalarMonth []

/-- Per-neighborhood series of a run (stat key, then neighborhood id). -/
def neighbsOf (out : OutputJson) : Dict (Dict (List Int)) :=
  buildNested (out.history.map Month.neighborhoods)

/-- Per-landlord series of a run (stat key, then landlord id). -/
def landlordsOf (out : OutputJson) : Dict (Dict (List Int)) :=
  buildNested (out.history.map Month.landlords)

/-- Global scalar series of a run. -/
def statsOf (out : OutputJson) : Dict (List Int) :=
  buildStats (out.history.map Month.scalars)

/-! ## Chart renderer (plot.py lines 41-112) -/

/-- Initial-distribution histograms, one per init key, annotated with the
25/75/90/99 percentile legend, saved as key_init.png. -/
def initCharts (ini : Dict (List Int)) : List (String × Chart) :=
  ini.map (fun p =>
    (p.1 ++ "_init.png", Chart.hist (p.1 ++ " (init)") p.2 ["25%", "75%", "90%", "99%"]))

/-- The loop `for k in ks: vals = stats[k]; plt.plot(..., label=k)` over a
fixed key list: produces the labelled lines and threads the defaultdict,
which inserts an empty series for every key absent from stats. -/
def fixedSeries (stats : Dict (List Int)) : List String → List PlotLine × Dict (List Int)
  | [] => ([], stats)
  | k :: rest =>
      let r := ddGet stats k
      let s := fixedSeries r.2 rest
      (⟨some k, none, r.1⟩ :: s.1, s.2)

/-- The two fixed keys of the rents chart. -/
def rentKeys : List String := ["mean_rent_per_area", "mean_adjusted_rent_per_area"]

/-- The three fixed keys of the DOMA fund chart. -/
def fundKeys : List String := ["doma_property_fund", "mean_value", "min_value"]

/-- The stats dict after the rents chart accessed its two keys. -/
def statsAfterRents (out : OutputJson) : Dict (List Int) :=
  (fixedSeries (statsOf out) rentKeys).2

/-- The stats dict after the DOMA fund chart accessed its three keys. -/
def statsAfterFund (out : OutputJson) : Dict (List Int) :=
  (fixedSeries (statsAfterRents out) fundKeys).2

/-- The stats dict iterated by the generic per-statistic loop: the fund
stage's dict with min_value deleted (plot.py line 75). -/
def statsAfterDel (out : OutputJson) : Dict (List Int) :=
  alDel (statsAfterFund out) "min_value"

/-- The rents overlay chart (plot.py lines 56-64). -/
def rentsChart (out : OutputJson) : Chart :=
  Chart.line "rents" (fixedSeries (statsOf out) rentKeys).1 true

/-- The DOMA fund overlay chart (plot.py lines 66-74). -/
def domaChart (out : OutputJson) : Chart :=
  Chart.line "doma_fund" (fixedSeries (statsAfterRents out) fundKeys).1 true

/-- The label of one neighborhood line (plot.py line 86):
meta['neighborhoods'].get(id, default Neighborhood-id entry), then its
'name' field. A missing meta neighborhoods mapping, or a meta entry without
a name field, raises a KeyError. -/
def neighbLabel (metaN : Option (Dict (Dict String))) (id : String) : Except Err String :=
  match metaN with
  | none => .error (.keyError "neighborhoods")
  | some m =>
      match alFind m id with
      | some entry =>
          match alFind entry "name" with
          | some n => .ok n
          | none => .error (.keyError "name")
      | none => .ok ("Neighborhood " ++ id)

/-- The per-neighborhood lines of one breakdown chart, in dict order. -/
def neighbLines (metaN : Option (Dict (Dict String))) :
    Dict (List Int) → Except Err (List PlotLine)
  | [] => .ok []
  | (id, vs) :: rest =>
      match neighbLabel metaN id with
      | .error e => .error e
      | .ok lab =>
          match neighbLines metaN rest with
          | .error e => .error e
          | .ok ls => .ok (⟨some lab, none, vs⟩ :: ls)

/-- A neighborhood-breakdown chart: the global series labelled All, then
one line per neighborhood (plot.py lines 81-91). -/
def neighbChart (metaN : Option (Dict (Dict String))) (k : String) (vals : List Int)
    (inner : Dict (List Int)) : Except Err Chart :=
  match neighbLines metaN inner with
  | .error e => .error e
  | .ok ls => .ok (Chart.line k (⟨some "All", none, vals⟩ :: ls) true)

/-- One landlord line (plot.py lines 97-101): id -1 is always DOMA in the
fixed color, every other id is labelled Landlord id. -/
def landlordLine (id : String) (vs : List Int) : PlotLine :=
  if id = "-1" then ⟨some "DOMA", some "#f771b4", vs⟩
  else ⟨some ("Landlord " ++ id), none, vs⟩

/-- A landlord-breakdown chart: the global series labelled All, then one
line per landlord (plot.py lines 93-105). -/
def landlordChart (k : String) (vals : List Int) (inner : Dict (List Int)) : Chart :=
  Chart.line k (⟨some "All", none, vals⟩ :: inner.map (fun p => landlordLine p.1 p.2)) true

/-- The neighborhood part of one generic-loop iteration: a breakdown chart
saved as key_neighb.png when the key has per-neighborhood series. -/
def neighbPart (metaN : Option (Dict (Dict String))) (n : Dict (Dict (List Int)))
    (k : String) (vals : List Int) : Except Err (List (String × Chart)) :=
  match alFind n k with
  | some inner =>
      match neighbChart metaN k vals inner with
      | .error e => .error e
      | .ok c => .ok [(k ++ "_neighb.png", c)]
  | none => .ok []

/-- The landlord part of one generic-loop iteration: a breakdown chart
saved as key_landlords.png when the key has per-landlord series. -/
def landlordPart (l : Dict (Dict (List Int))) (k : String) (vals : List Int) :
    List (String × Chart) :=
  match alFind l k with
  | some inner => [(k ++ "_landlords.png", landlordChart k vals inner)]
  | none => []

/-- The solo part of one generic-loop iteration: an unlabelled, legendless
line chart saved as key.png, only when neither breakdown exists. -/
def soloPart (n l : Dict (Dict (List Int))) (k : String) (vals : List Int) :
    List (String × Chart) :=
  if (alFind n k).isNone && (alFind l k).isNone then
    [(k ++ ".png", Chart.line k [⟨none, none, vals⟩] false)]
  else []

/-- One iteration of the generic per-statistic loop (plot.py lines 77-112). -/
def chartsForKey (metaN : Option (Dict (Dict String))) (n l : Dict (Dict (List Int)))
    (k : String) (vals : List Int) : Except Err (List (String × Chart)) :=
  match neighbPart metaN n k vals with
  | .error e => .error e
  | .ok np => .ok (np ++ landlordPart l k vals ++ soloPart n l k vals)

/-- The generic per-statistic loop over the remaining stats dict, in dict
order, accumulating filename/chart pairs. -/
def genericCharts (metaN : Option (Dict (Dict String))) (n l : Dict (Dict (List Int))) :
    Dict (List Int) → Except Err (List (String × Chart))
  | [] => .ok []
  | p :: rest =>
      match chartsForKey metaN n l p.1 p.2 with
      | .error e => .error e
      | .ok cs =>
          match genericCharts metaN n l rest with
          | .error e => .error e
          | .ok csRest => .ok (cs ++ csRest)

/-- The whole rendering pipeline on a parsed run record: init histograms,
rents chart, DOMA fund chart, then the generic loop; finally the report
assembler pops meta['neighborhoods'] (plot.py line 114), which raises a
KeyError when that mapping is absent. Returns the filename/chart pairs in
generation order. -/
def pipeline (out : OutputJson) : Except Err (List (String × Chart)) :=
  match genericCharts out.metaNeighborhoods (neighbsOf out) (landlordsOf out)
      (statsAfterDel out) with
  | .error e => .error e
  | .ok gen =>
      match out.metaNeighborhoods with
      | none => .error (.keyError "neighborhoods")
      | some _ =>
          .ok (initCharts out.init
            ++ ("rents.png", rentsChart out) :: ("doma_fund.png", domaChart out) :: gen)

/-! ## File-system model and make_plots (plot.py lines 11-19, 134) -/

/-- The observable state of an output directory: output.json (absent,
present but malformed, or parsed), config.yaml likewise, and whether the
plots/ subdirectory exists. -/
structure Dir where
  outputJson : Option (Option OutputJson)
  configYaml : Option (Option String)
  plotsExists : Bool
deriving DecidableEq

/-- make_plots: mkdir plots/ first (failing if it exists), then load and
parse output.json, then config.yaml, then run the rendering pipeline.
Returns the outcome together with the directory state after the call. -/
def makePlots (d : Dir) : Except Err (List String) × Dir :=
  if d.plotsExists then (.error .alreadyExists, d)
  else
    let d1 : Dir := { d with plotsExists := true }
    match d.outputJson with
    | none => (.error (.ioMissing "output.json"), d1)
    | some none => (.error (.formatError "output.json"), d1)
    | some (some out) =>
        match d.configYaml with
        | none => (.error (.ioMissing "config.yaml"), d1)
        | some none => (.error (.formatError "config.yaml"), d1)
        | some (some _cfg) =>
            match pipeline out with
            | .error e => (.error e, d1)
            | .ok charts => (.ok (charts.map Prod.fst), d1)

instance {ε α : Type} [DecidableEq ε] [DecidableEq α] : DecidableEq (Except ε α) := fun
  | .ok a, .ok b =>
      match decEq a b with
      | .isTrue h => .isTrue (by rw [h])
      | .isFalse h => .isFalse (fun he => h (by injection he))
  | .ok _, .error _ => .isFalse (fun he => Except.noConfusion he)
  | .error _, .ok _ => .isFalse (fun he => Except.noConfusion he)
  | .error a, .error b =>
      match decEq a b with
      | .isTrue h => .isTrue (by rw [h])
      | .isFalse h => .isFalse (fun he => h (by injection he))

/-! ## Spec-side definitions (formulas stated by the specification) -/

/-- Spec chart-count formula: the contribution of one remaining stat key,
1 if solo, else one per available breakdown. -/
def soloWeight (hasN hasL : Bool) : Nat :=
  if !hasN && !hasL then 1 else (if hasN then 1 else 0) + (if hasL then 1 else 0)

/-- Spec chart-count formula: total contribution of the generic loop. -/
def weightSum (n l : Dict (Dict (List Int))) : Dict (List Int) → Nat
  | [] => 0
  | p :: rest => soloWeight (alFind n p.1).isSome (alFind l p.1).isSome + weightSum n l rest

/-- Spec chart-count formula: len(init) + 2 + the generic-loop weights. -/
def expectedCount (out : OutputJson) : Nat :=
  out.init.length + 2 + weightSum (neighbsOf out) (landlordsOf out) (statsAfterDel out)

/-- Neighborhood-line labelling rule in the spec's words, with the fallback
as the code actually computes it: the display name when the id is present in
the meta neighborhoods mapping, else the string Neighborhood-id (the getD
default is never reached when every meta entry carries a name). -/
def labelSpec (metaN : Dict (Dict String)) (id : String) : String :=
  match alFind metaN id with
  | some entry => (alFind entry "name").getD ("Neighborhood " ++ id)
  | none => "Neighborhood " ++ id

/-- Number of bindings of a key in a dict (1 when a JSON dict has the key). -/
def keyCount {α : Type} : Dict α → String → Nat
  | [], _ => 0
  | p :: rest, k => (if p.1 = k then 1 else 0) + keyCount rest k

/-- Number of appends the nested reshape performs for the pair (k, id) on
one month's sub-object. -/
def pairCount : Dict (Dict Int) → String → String → Nat
  | [], _, _ => 0
  | p :: rest, k, id => (if p.1 = id then keyCount p.2 k else 0) + pairCount rest k id

/-- Length of an optional series (0 when absent). -/
def optLen {α : Type} (o : Option (List α)) : Nat := (o.getD []).length

/-- Whether a run outcome is a success. -/
def isOkE {α : Type} : Except Err α → Bool
  | .ok _ => true
  | .error _ => false

/-! ## Example runs used as concrete witnesses -/

/-- A small well-formed run: one month with one scalar stat carrying both a
neighborhood and a landlord breakdown, one init distribution, and a meta
display name for the neighborhood. -/
def exW : OutputJson :=
  { metaNeighborhoods := some [("A", [("name", "Downtown")])]
    history := [ { scalars := [("rent", 10)]
                   neighborhoods := [("A", [("rent", 10)])]
                   landlords := [("-1", [("rent", 10)])] } ]
    init := [("values", [1, 2, 3])] }

/-- A run whose stat key x appears in the first month only. -/
def exUneven : OutputJson :=
  { metaNeighborhoods := some []
    history := [ { scalars := [("x", 10)], neighborhoods := [], landlords := [] },
                 { scalars := [], neighborhoods := [], landlords := [] } ]
    init := [] }

/-- A run whose history carries none of the fixed rent and fund stat keys. -/
def exNoFixed : OutputJson :=
  { metaNeighborhoods := some []
    history := [ { scalars := [("other", 5)], neighborhoods := [], landlords := [] } ]
    init := [] }

/-- exW's run record with the meta neighborhoods mapping absent. -/
def exNoMetaN : OutputJson :=
  { exW with metaNeighborhoods := none }

/-- A directory holding a valid output.json but no config file. -/
def exDirNoCfg : Dir :=
  { outputJson := some (some exW), configYaml := none, plotsExists := false }

/-- The same directory with a config file present. -/
def exDirCfg : Dir :=
  { exDirNoCfg with configYaml := some (some "cfg") }

/-! ## Dictionary lemmas -/

theorem alFind_append_of_none {α : Type} {d : Dict α} {k : String} (e : Dict α)
    (h : alFind d k = none) : alFind (d ++ e) k = alFind e k := by
  induction d with
  | nil => simp
  | cons p rest ih =>
      by_cases hp : p.1 = k
      · simp [alFind, hp] at h
      · obtain ⟨k1, v1⟩ := p
        simp only [alFind, if_neg hp] at h
        simpa [alFind, hp] using ih h

theorem alFind_append_of_some {α : Type} {d : Dict α} {k : String} {v : α} (e : Dict α)
    (h : alFind d k = some v) : alFind (d ++ e) k = some v := by
  induction d with
  | nil => simp [alFind] at h
  | cons p rest ih =>
      obtain ⟨k1, v1⟩ := p
      by_cases hp : k1 = k
      · simp only [alFind, if_pos hp] at h
        simpa [alFind, hp] using h
      · simp only [alFind, if_neg hp] at h
        simpa [alFind, hp] using ih h

theorem alFind_cons {α : Type} (k1 : String) (v1 : α) (rest : Dict α) (k : String) :
    alFind ((k1, v1) :: rest) k = if k1 = k then some v1 else alFind rest k := rfl

theorem alFind_map_update_self {α : Type} (d : Dict α) (k : String) (g : α → α) :
    alFind (d.map (fun p => if p.1 = k then (p.1, g p.2) else p)) k = (alFind d k).map g := by
  induction d with
  | nil => rfl
  | cons p rest ih =>
      obtain ⟨k1, v1⟩ := p
      rw [List.map_cons]
      by_cases hp : k1 = k
      · have hh : (if (k1, v1).1 = k then ((k1, v1).1, g (k1, v1).2) else (k1, v1))
            = (k1, g v1) := by
          simp [hp]
        rw [hh, alFind_cons, alFind_cons, if_pos hp, if_pos hp]
        rfl
      · have hh : (if (k1, v1).1 = k then ((k1, v1).1, g (k1, v1).2) else (k1, v1))
            = (k1, v1) := by
          simp [hp]
        rw [hh, alFind_cons, alFind_cons, if_neg hp, if_neg hp, ih]

theorem alFind_map_update_other {α : Type} (d : Dict α) (k k' : String) (g : α → α)
    (hne : k' ≠ k) :
    alFind (d.map (fun p => if p.1 = k then (p.1, g p.2) else p)) k' = alFind d k' := by
  induction d with
  | nil => rfl
  | cons p rest ih =>
      obtain ⟨k1, v1⟩ := p
      rw [List.map_cons]
      by_cases hp : k1 = k
      · have hh : (if (k1, v1).1 = k then ((k1, v1).1, g (k1, v1).2) else (k1, v1))
            = (k1, g v1) := by
          simp [hp]
        have hk1 : k1 ≠ k' := by
          rw [hp]
          exact fun he => hne he.symm
        rw [hh, alFind_cons, alFind_cons, if_neg hk1, if_neg hk1, ih]
      · have hh : (if (k1, v1).1 = k then ((k1, v1).1, g (k1, v1).2) else (k1, v1))
            = (k1, v1) := by
          simp [hp]
        rw [hh, alFind_cons, alFind_cons, ih]

theorem alFind_ddAppend_self {α : Type} (d : Dict (List α)) (k : String) (v : α) :
    alFind (ddAppend d k v) k = some ((alFind d k).getD [] ++ [v]) := by
  cases h : alFind d k with
  | none =>
      simp only [ddAppend, h]
      rw [alFind_append_of_none _ h]
      simp [alFind]
  | some l =>
      simp only [ddAppend, h]
      rw [alFind_map_update_self d k (fun x => x ++ [v])]
      simp [h]

theorem alFind_ddAppend_other {α : Type} (d : Dict (List α)) (k : String) (v : α)
    {k' : String} (hne : k' ≠ k) : alFind (ddAppend d k v) k' = alFind d k' := by
  cases h : alFind d k with
  | none =>
      simp only [ddAppend, h]
      cases h' : alFind d k' with
      | none => rw [alFind_append_of_none _ h']; simp [alFind, Ne.symm hne]
      | some w => exact alFind_append_of_some _ h'
  | some l =>
      simp only [ddAppend, h]
      exact alFind_map_update_other d k k' (fun x => x ++ [v]) hne

theorem alFind_alSet_self {α : Type} (d : Dict α) (k : String) (v : α) :
    alFind (alSet d k v) k = (alFind d k).map (fun _ => v) :=
  alFind_map_update_self d k (fun _ => v)

theorem alFind_alSet_other {α : Type} (d : Dict α) (k : String) (v : α)
    {k' : String} (hne : k' ≠ k) : alFind (alSet d k v) k' = alFind d k' :=
  alFind_map_update_other d k k' (fun _ => v) hne

theorem alFind_alDel_self {α : Type} (d : Dict α) (k : String) :
    alFind (alDel d k) k = none := by
  induction d with
  | nil => simp [alDel, alFind]
  | cons p rest ih =>
      by_cases hp : p.1 = k
      · simpa [alDel, List.filter, hp] using ih
      · simpa [alDel, List.filter, hp, alFind] using ih

theorem alFind_isSome_of_mem {α : Type} {d : Dict α} {k : String} {v : α}
    (h : (k, v) ∈ d) : (alFind d k).isSome := by
  induction d with
  | nil => simp at h
  | cons p rest ih =>
      obtain ⟨k1, v1⟩ := p
      rw [alFind_cons]
      by_cases hp : k1 = k
      · rw [if_pos hp]
        rfl
      · rw [if_neg hp]
        rcases List.mem_cons.mp h with h1 | h1
        · exact absurd (congrArg Prod.fst h1).symm hp
        · exact ih h1

theorem alFind_mem {α : Type} {d : Dict α} {k : String} {v : α}
    (h : alFind d k = some v) : (k, v) ∈ d := by
  induction d with
  | nil => simp [alFind] at h
  | cons p rest ih =>
      obtain ⟨k1, v1⟩ := p
      rw [alFind_cons] at h
      by_cases hp : k1 = k
      · rw [if_pos hp] at h
        injection h with h
        rw [← hp, ← h]
        exact List.mem_cons_self _ _
      · rw [if_neg hp] at h
        exact List.mem_cons_of_mem _ (ih h)

/-! ## Renderer lemmas -/

theorem neighbPart_ok_inv {metaN : Option (Dict (Dict String))} {n : Dict (Dict (List Int))}
    {k : String} {vals : List Int} {np : List (String × Chart)}
    (h : neighbPart metaN n k vals = .ok np) :
    (alFind n k = none ∧ np = []) ∨
      ∃ inner c, alFind n k = some inner ∧ neighbChart metaN k vals inner = .ok c ∧
        np = [(k ++ "_neighb.png", c)] := by
  cases hf : alFind n k with
  | none =>
      left
      simp [neighbPart, hf] at h
      exact ⟨rfl, h⟩
  | some inner =>
      right
      cases hc : neighbChart metaN k vals inner with
      | error e => simp [neighbPart, hf, hc] at h
      | ok c =>
          simp [neighbPart, hf, hc] at h
          exact ⟨inner, c, rfl, hc, h.symm⟩

theorem chartsForKey_ok_inv {metaN : Option (Dict (Dict String))}
    {n l : Dict (Dict (List Int))} {k : String} {vals : List Int}
    {cs : List (String × Chart)} (h : chartsForKey metaN n l k vals = .ok cs) :
    ∃ np, neighbPart metaN n k vals = .ok np
      ∧ cs = np ++ landlordPart l k vals ++ soloPart n l k vals := by
  cases hp : neighbPart metaN n k vals with
  | error e => simp [chartsForKey, hp] at h
  | ok np =>
      simp [chartsForKey, hp] at h
      refine ⟨np, rfl, ?_⟩
      rw [← h, List.append_assoc]

theorem chartsForKey_length {metaN : Option (Dict (Dict String))}
    {n l : Dict (Dict (List Int))} {k : String} {vals : List Int}
    {cs : List (String × Chart)} (h : chartsForKey metaN n l k vals = .ok cs) :
    cs.length = soloWeight (alFind n k).isSome (alFind l k).isSome := by
  obtain ⟨np, hnp, hcs⟩ := chartsForKey_ok_inv h
  subst hcs
  rcases neighbPart_ok_inv hnp with ⟨hf, hnp0⟩ | ⟨inner, c, hf, _, hnp0⟩ <;>
    subst hnp0 <;>
    cases hl : alFind l k <;>
    simp [soloWeight, landlordPart, soloPart, hf, hl]

theorem genericCharts_length {metaN : Option (Dict (Dict String))}
    {n l : Dict (Dict (List Int))} :
    ∀ {s : Dict (List Int)} {gcs : List (String × Chart)},
      genericCharts metaN n l s = .ok gcs → gcs.length = weightSum n l s := by
  intro s
  induction s with
  | nil =>
      intro gcs h
      simp [genericCharts] at h
      simp [← h, weightSum]
  | cons p rest ih =>
      intro gcs h
      cases h1 : chartsForKey metaN n l p.1 p.2 with
      | error e => simp [genericCharts, h1] at h
      | ok cs =>
          cases h2 : genericCharts metaN n l rest with
          | error e => simp [genericCharts, h1, h2] at h
          | ok csr =>
              simp [genericCharts, h1, h2] at h
              have e1 := chartsForKey_length h1
              have e2 := ih h2
              rw [← h]
              simp [weightSum, List.length_append, e1, e2]

theorem initCharts_length (ini : Dict (List Int)) : (initCharts ini).length = ini.length := by
  simp [initCharts]

theorem fixedSeries_labels :
    ∀ (ks : List String) (stats : Dict (List Int)),
      ((fixedSeries stats ks).1).map PlotLine.label = ks.map some := by
  intro ks
  induction ks with
  | nil => intro stats; simp [fixedSeries]
  | cons k rest ih => intro stats; simp [fixedSeries, ih]

theorem pipeline_ok {out : OutputJson} {cs : List (String × Chart)}
    (h : pipeline out = .ok cs) :
    ∃ gen, genericCharts out.metaNeighborhoods (neighbsOf out) (landlordsOf out)
        (statsAfterDel out) = .ok gen
      ∧ out.metaNeighborhoods.isSome
      ∧ cs = initCharts out.init
          ++ ("rents.png", rentsChart out) :: ("doma_fund.png", domaChart out) :: gen := by
  cases hg : genericCharts out.metaNeighborhoods (neighbsOf out) (landlordsOf out)
      (statsAfterDel out) with
  | error e => simp [pipeline, hg] at h
  | ok gen =>
      unfold pipeline at h
      rw [hg] at h
      simp only [] at h
      cases hm : out.metaNeighborhoods with
      | none =>
          rw [hm] at h
          simp at h
      | some m =>
          rw [hm] at h
          simp at h
          exact ⟨gen, rfl, by simp [hm], h.symm⟩

/-- C1: for every run record on which the pipeline succeeds, the number of
generated chart files (filenames accumulated for the report) equals
len(init) + 2 (rents.png, doma_fund.png) + for each stat key remaining in
stats after min_value is removed: 1 if the key has neither breakdown, else
one per available breakdown. -/
theorem run_chart_count (out : OutputJson) (cs : List (String × Chart))
    (h : pipeline out = .ok cs) : cs.length = expectedCount out := by
  obtain ⟨gen, hg, _, hcs⟩ := pipeline_ok h
  subst hcs
  have hlen := genericCharts_length hg
  simp [expectedCount, initCharts_length, List.length_append, hlen]
  omega

/-- Witness for C1 at a concrete run that renders nine charts. -/
theorem run_chart_count_witness :
    ((pipeline exW).toOption.getD []).length = expectedCount exW :=
  run_chart_count exW ((pipeline exW).toOption.getD []) rfl

/-! ## Series-length lemmas (reshaper invariant) -/

theorem optLen_ddAppend_self {α : Type} (d : Dict (List α)) (k : String) (v : α) :
    optLen (alFind (ddAppend d k v) k) = optLen (alFind d k) + 1 := by
  rw [alFind_ddAppend_self]
  cases h : alFind d k <;> simp [optLen, h]

theorem optLen_addScalarMonth (m : Dict Int) :
    ∀ (d : Dict (List Int)) (k : String),
      optLen (alFind (addScalarMonth d m) k) = optLen (alFind d k) + keyCount m k := by
  induction m with
  | nil => intro d k; simp [addScalarMonth, keyCount]
  | cons q rest ih =>
      intro d k
      have hstep : addScalarMonth d (q :: rest) = addScalarMonth (ddAppend d q.1 q.2) rest := by
        simp [addScalarMonth]
      rw [hstep, ih]
      by_cases hq : q.1 = k
      · rw [hq, optLen_ddAppend_self, keyCount]
        simp [hq]
        omega
      · rw [alFind_ddAppend_other d q.1 q.2 (fun he => hq he.symm), keyCount]
        simp [hq]

theorem optLen_buildStats_fold (ms : List (Dict Int)) :
    ∀ (d : Dict (List Int)) (k : String),
      optLen (alFind (ms.foldl addScalarMonth d) k)
        = optLen (alFind d k) + (ms.map (fun m => keyCount m k)).sum := by
  induction ms with
  | nil => intro d k; simp
  | cons m rest ih =>
      intro d k
      simp only [List.foldl_cons, List.map_cons, List.sum_cons]
      rw [ih, optLen_addScalarMonth]
      omega

theorem optLen_dd2Append_self (d : Dict (Dict (List Int))) (k id : String) (v : Int) :
    optLen (find2 (dd2Append d k id v) k id) = optLen (find2 d k id) + 1 := by
  cases h : alFind d k with
  | none =>
      simp only [dd2Append, h]
      have h1 : alFind (d ++ [(k, [(id, [v])])]) k = some [(id, [v])] := by
        rw [alFind_append_of_none _ h]
        simp [alFind]
      simp [find2, h1, h, alFind, optLen]
  | some inner =>
      simp only [dd2Append, h]
      have h1 : alFind (alSet d k (ddAppend inner id v)) k = some (ddAppend inner id v) := by
        rw [alFind_alSet_self, h]
        rfl
      simp only [find2, h1, h]
      exact optLen_ddAppend_self inner id v

theorem find2_dd2Append_other (d : Dict (Dict (List Int))) (k id : String) (v : Int)
    {k' id' : String} (hne : k' ≠ k ∨ id' ≠ id) :
    find2 (dd2Append d k id v) k' id' = find2 d k' id' := by
  by_cases hk : k' = k
  · subst hk
    have hid : id' ≠ id := hne.resolve_left (fun he => he rfl)
    cases h : alFind d k' with
    | none =>
        simp only [dd2Append, h]
        have h1 : alFind (d ++ [(k', [(id, [v])])]) k' = some [(id, [v])] := by
          rw [alFind_append_of_none _ h]
          simp [alFind]
        simp [find2, h1, h, alFind, Ne.symm hid]
    | some inner =>
        simp only [dd2Append, h]
        have h1 : alFind (alSet d k' (ddAppend inner id v)) k'
            = some (ddAppend inner id v) := by
          rw [alFind_alSet_self, h]
          rfl
        simp only [find2, h1, h]
        exact alFind_ddAppend_other inner id v hid
  · cases h : alFind d k with
    | none =>
        simp only [dd2Append, h]
        have h1 : alFind (d ++ [(k, [(id, [v])])]) k' = alFind d k' := by
          cases h2 : alFind d k' with
          | none => rw [alFind_append_of_none _ h2]; simp [alFind, Ne.symm hk]
          | some w => exact alFind_append_of_some _ h2
        simp [find2, h1]
    | some inner =>
        simp only [dd2Append, h]
        have h1 : alFind (alSet d k (ddAppend inner id v)) k' = alFind d k' :=
          alFind_alSet_other d k (ddAppend inner id v) hk
        simp [find2, h1]

theorem optLen_innerNested (sts : Dict Int) :
    ∀ (d : Dict (Dict (List Int))) (id' k id : String),
      optLen (find2 (sts.foldl (fun d q => dd2Append d q.1 id' q.2) d) k id)
        = optLen (find2 d k id) + (if id' = id then keyCount sts k else 0) := by
  induction sts with
  | nil => intro d id' k id; simp [keyCount]
  | cons q rest ih =>
      intro d id' k id
      simp only [List.foldl_cons]
      rw [ih]
      by_cases hq : q.1 = k
      · by_cases hid : id' = id
        · rw [hq, hid, optLen_dd2Append_self]
          simp [keyCount, hq, hid]
          omega
        · rw [find2_dd2Append_other d q.1 id' q.2 (Or.inr (fun he => hid he.symm))]
          simp [hid]
      · rw [find2_dd2Append_other d q.1 id' q.2 (Or.inl (fun he => hq he.symm))]
        by_cases hid : id' = id
        · simp [keyCount, hid, hq]
        · simp [hid]

theorem optLen_addNestedMonth (m : Dict (Dict Int)) :
    ∀ (d : Dict (Dict (List Int))) (k id : String),
      optLen (find2 (addNestedMonth d m) k id)
        = optLen (find2 d k id) + pairCount m k id := by
  induction m with
  | nil => intro d k id; simp [addNestedMonth, pairCount]
  | cons p rest ih =>
      intro d k id
      have hstep : addNestedMonth d (p :: rest)
          = addNestedMonth (p.2.foldl (fun d q => dd2Append d q.1 p.1 q.2) d) rest := by
        simp [addNestedMonth]
      rw [hstep, ih, optLen_innerNested, pairCount]
      omega

theorem optLen_buildNested_fold (ms : List (Dict (Dict Int))) :
    ∀ (d : Dict (Dict (List Int))) (k id : String),
      optLen (find2 (ms.foldl addNestedMonth d) k id)
        = optLen (find2 d k id) + (ms.map (fun m => pairCount m k id)).sum := by
  induction ms with
  | nil => intro d k id; simp
  | cons m rest ih =>
      intro d k id
      simp only [List.foldl_cons, List.map_cons, List.sum_cons]
      rw [ih, optLen_addNestedMonth]
      omega

theorem sum_of_ones {β : Type} (xs : List β) (f : β → Nat)
    (h : ∀ x ∈ xs, f x = 1) : (xs.map f).sum = xs.length := by
  induction xs with
  | nil => simp
  | cons x rest ih =>
      simp only [List.map_cons, List.sum_cons, List.length_cons]
      rw [h x (List.mem_cons_self x rest), ih (fun y hy => h y (List.mem_cons_of_mem x hy))]
      omega

/-- C2 counterexample: in a run whose stat key x is recorded in the first
month only, the derived global series stats[x] has length 1 while the
history has length 2, so a derived series need not have length
len(history) for every run record. -/
theorem series_length_cex :
    alFind (statsOf exUneven) "x" = some [10]
      ∧ exUneven.history.length = 2
      ∧ ([(10 : Int)] : List Int).length ≠ 2 := by
  refine ⟨by decide, rfl, by decide⟩

/-- C2 as amended: a derived series has length len(history) provided its
key is recorded exactly once in every month — the global series stats[k]
when every month's scalars bind k once, the per-neighborhood series
neighborhoods[k][id] and per-landlord series landlords[k][id] when every
month's sub-object performs exactly one append for the pair (k, id). -/
theorem series_lengths (out : OutputJson) :
    (∀ k series, alFind (statsOf out) k = some series →
        (∀ m ∈ out.history, keyCount m.scalars k = 1) →
        series.length = out.history.length)
  ∧ (∀ k id series, find2 (neighbsOf out) k id = some series →
        (∀ m ∈ out.history, pairCount m.neighborhoods k id = 1) →
        series.length = out.history.length)
  ∧ (∀ k id series, find2 (landlordsOf out) k id = some series →
        (∀ m ∈ out.history, pairCount m.landlords k id = 1) →
        series.length = out.history.length) := by
  refine ⟨?_, ?_, ?_⟩
  · intro k series hs hone
    have h1 := optLen_buildStats_fold (out.history.map Month.scalars) [] k
    rw [List.map_map] at h1
    have h2 : ((out.history.map (fun m => keyCount m.scalars k))).sum
        = out.history.length :=
      sum_of_ones _ _ (fun m hm => hone m hm)
    have h3 : (out.history.map ((fun m => keyCount m k) ∘ Month.scalars)).sum
        = (out.history.map (fun m => keyCount m.scalars k)).sum := rfl
    rw [h3, h2] at h1
    have h4 : optLen (alFind (statsOf out) k) = out.history.length := by
      simpa [statsOf, buildStats, optLen, alFind] using h1
    rw [hs] at h4
    simpa [optLen] using h4
  · intro k id series hs hone
    have h1 := optLen_buildNested_fold (out.history.map Month.neighborhoods) [] k id
    rw [List.map_map] at h1
    have h2 : ((out.history.map (fun m => pairCount m.neighborhoods k id))).sum
        = out.history.length :=
      sum_of_ones _ _ (fun m hm => hone m hm)
    have h3 : (out.history.map ((fun m => pairCount m k id) ∘ Month.neighborhoods)).sum
        = (out.history.map (fun m => pairCount m.neighborhoods k id)).sum := rfl
    rw [h3, h2] at h1
    have h4 : optLen (find2 (neighbsOf out) k id) = out.history.length := by
      simpa [neighbsOf, buildNested, optLen, find2, alFind] using h1
    rw [hs] at h4
    simpa [optLen] using h4
  · intro k id series hs hone
    have h1 := optLen_buildNested_fold (out.history.map Month.landlords) [] k id
    rw [List.map_map] at h1
    have h2 : ((out.history.map (fun m => pairCount m.landlords k id))).sum
        = out.history.length :=
      sum_of_ones _ _ (fun m hm => hone m hm)
    have h3 : (out.history.map ((fun m => pairCount m k id) ∘ Month.landlords)).sum
        = (out.history.map (fun m => pairCount m.landlords k id)).sum := rfl
    rw [h3, h2] at h1
    have h4 : optLen (find2 (landlordsOf out) k id) = out.history.length := by
      simpa [landlordsOf, buildNested, optLen, find2, alFind] using h1
    rw [hs] at h4
    simpa [optLen] using h4

/-- Witness for the amended C2: the uniform one-month run exW. -/
theorem series_lengths_witness :
    ([(10 : Int)] : List Int).length = exW.history.length :=
  (series_lengths exW).1 "rent" [10] (by decide) (by decide)

/-- C3 counterexample: on a directory whose output.json is valid but that
has no config file, make_plots fails with the missing-file error for
config.yaml, while the same directory with a config file succeeds — so the
failure is caused solely by the absent config. -/
theorem config_required_cex :
    (makePlots exDirNoCfg).1 = .error (.ioMissing "config.yaml")
      ∧ isOkE (makePlots exDirCfg).1 = true := by
  refine ⟨rfl, rfl⟩

/-- C3 as amended: the companion config file is required, not optional —
make_plots opens config.yaml unconditionally and fails with an IO error
when it is absent; when present, its content is consumed solely for
display and has no effect on the run's outcome. -/
theorem config_required (d : Dir) (out : OutputJson)
    (hp : d.plotsExists = false) (ho : d.outputJson = some (some out)) :
    (d.configYaml = none → (makePlots d).1 = .error (.ioMissing "config.yaml"))
  ∧ (∀ c c', (makePlots { d with configYaml := some (some c) }).1
        = (makePlots { d with configYaml := some (some c') }).1) := by
  constructor
  · intro hc
    simp [makePlots, hp, ho, hc]
  · intro c c'
    simp only [makePlots, hp, ho]
    cases pipeline out <;> rfl

/-- Witness for the amended C3 at the concrete config-less directory. -/
theorem config_required_witness :
    (makePlots exDirNoCfg).1 = .error (.ioMissing "config.yaml") :=
  (config_required exDirNoCfg exW rfl rfl).1 rfl

/-- C4 counterexample: a neighborhood id absent from the meta mapping is
labelled with the string Neighborhood-id, not with its raw id. -/
theorem neighb_label_cex :
    neighbChart (some []) "rent" [10, 12] [("A", [10, 12])]
      = .ok (Chart.line "rent"
          [⟨some "All", none, [10, 12]⟩, ⟨some "Neighborhood A", none, [10, 12]⟩] true)
      ∧ "Neighborhood A" ≠ "A" := by
  refine ⟨rfl, by decide⟩

/-- C4 as amended: in a neighborhood-breakdown chart each neighborhood line
is labelled by the neighborhood's display name when its id is present in
the meta neighborhoods mapping, and by the string Neighborhood-id when it
is absent (assuming every meta entry carries a name field, as the code
otherwise raises a KeyError). -/
theorem neighb_label_rule (metaN : Dict (Dict String)) (k : String) (vals : List Int)
    (inner : Dict (List Int))
    (hw : ∀ p ∈ metaN, (alFind p.2 "name").isSome) :
    neighbChart (some metaN) k vals inner
      = .ok (Chart.line k
          (⟨some "All", none, vals⟩
            :: inner.map (fun p => ⟨some (labelSpec metaN p.1), none, p.2⟩)) true) := by
  have hlab : ∀ id, neighbLabel (some metaN) id = .ok (labelSpec metaN id) := by
    intro id
    cases hf : alFind metaN id with
    | none => simp [neighbLabel, labelSpec, hf]
    | some entry =>
        have hs := hw (id, entry) (alFind_mem hf)
        cases hn : alFind entry "name" with
        | none => rw [hn] at hs; simp at hs
        | some nm => simp [neighbLabel, labelSpec, hf, hn]
  have hlines : ∀ ds : Dict (List Int), neighbLines (some metaN) ds
      = .ok (ds.map (fun p => ⟨some (labelSpec metaN p.1), none, p.2⟩)) := by
    intro ds
    induction ds with
    | nil => rfl
    | cons p rest ih =>
        obtain ⟨id, vs⟩ := p
        simp [neighbLines, hlab id, ih]
  simp [neighbChart, hlines inner]

/-- Witness for the amended C4: one id with a display name, one without. -/
theorem neighb_label_rule_witness :
    neighbChart (some [("A", [("name", "Downtown")])]) "rent" [10]
        [("A", [10]), ("B", [11])]
      = .ok (Chart.line "rent"
          [⟨some "All", none, [10]⟩,
           ⟨some (labelSpec [("A", [("name", "Downtown")])] "A"), none, [10]⟩,
           ⟨some (labelSpec [("A", [("name", "Downtown")])] "B"), none, [11]⟩] true) :=
  neighb_label_rule [("A", [("name", "Downtown")])] "rent" [10]
    [("A", [10]), ("B", [11])] (by decide)

/-! ## Error characterization of the rendering pipeline -/

theorem neighbLabel_error {metaN : Option (Dict (Dict String))} {id : String} {e : Err}
    (h : neighbLabel metaN id = .error e) :
    e = Err.keyError "neighborhoods" ∨ (metaN.isSome = true ∧ e = Err.keyError "name") := by
  cases metaN with
  | none =>
      simp [neighbLabel] at h
      exact Or.inl h.symm
  | some m =>
      cases hf : alFind m id with
      | some entry =>
          cases hn : alFind entry "name" with
          | some nm => simp [neighbLabel, hf, hn] at h
          | none =>
              simp [neighbLabel, hf, hn] at h
              exact Or.inr ⟨rfl, h.symm⟩
      | none => simp [neighbLabel, hf] at h

theorem neighbLines_error {metaN : Option (Dict (Dict String))} :
    ∀ {inner : Dict (List Int)} {e : Err}, neighbLines metaN inner = .error e →
      e = Err.keyError "neighborhoods" ∨ (metaN.isSome = true ∧ e = Err.keyError "name") := by
  intro inner
  induction inner with
  | nil => intro e h; simp [neighbLines] at h
  | cons p rest ih =>
      intro e h
      obtain ⟨id, vs⟩ := p
      cases hl : neighbLabel metaN id with
      | error e1 =>
          simp [neighbLines, hl] at h
          exact h ▸ neighbLabel_error hl
      | ok lab =>
          cases hr : neighbLines metaN rest with
          | error e2 =>
              simp [neighbLines, hl, hr] at h
              exact h ▸ ih hr
          | ok ls => simp [neighbLines, hl, hr] at h

theorem neighbChart_error {metaN : Option (Dict (Dict String))} {k : String}
    {vals : List Int} {inner : Dict (List Int)} {e : Err}
    (h : neighbChart metaN k vals inner = .error e) :
    e = Err.keyError "neighborhoods" ∨ (metaN.isSome = true ∧ e = Err.keyError "name") := by
  cases hl : neighbLines metaN inner with
  | error e1 =>
      simp [neighbChart, hl] at h
      exact h ▸ neighbLines_error hl
  | ok ls => simp [neighbChart, hl] at h

theorem neighbPart_error {metaN : Option (Dict (Dict String))} {n : Dict (Dict (List Int))}
    {k : String} {vals : List Int} {e : Err} (h : neighbPart metaN n k vals = .error e) :
    e = Err.keyError "neighborhoods" ∨ (metaN.isSome = true ∧ e = Err.keyError "name") := by
  cases hf : alFind n k with
  | none => simp [neighbPart, hf] at h
  | some inner =>
      cases hc : neighbChart metaN k vals inner with
      | error e1 =>
          simp [neighbPart, hf, hc] at h
          exact h ▸ neighbChart_error hc
      | ok c => simp [neighbPart, hf, hc] at h

theorem chartsForKey_error {metaN : Option (Dict (Dict String))}
    {n l : Dict (Dict (List Int))} {k : String} {vals : List Int} {e : Err}
    (h : chartsForKey metaN n l k vals = .error e) :
    e = Err.keyError "neighborhoods" ∨ (metaN.isSome = true ∧ e = Err.keyError "name") := by
  cases hp : neighbPart metaN n k vals with
  | error e1 =>
      simp [chartsForKey, hp] at h
      exact h ▸ neighbPart_error hp
  | ok np => simp [chartsForKey, hp] at h

theorem genericCharts_error {metaN : Option (Dict (Dict String))}
    {n l : Dict (Dict (List Int))} :
    ∀ {s : Dict (List Int)} {e : Err}, genericCharts metaN n l s = .error e →
      e = Err.keyError "neighborhoods" ∨ (metaN.isSome = true ∧ e = Err.keyError "name") := by
  intro s
  induction s with
  | nil => intro e h; simp [genericCharts] at h
  | cons p rest ih =>
      intro e h
      cases h1 : chartsForKey metaN n l p.1 p.2 with
      | error e1 =>
          simp [genericCharts, h1] at h
          exact h ▸ chartsForKey_error h1
      | ok cs =>
          cases h2 : genericCharts metaN n l rest with
          | error e2 =>
              simp [genericCharts, h1, h2] at h
              exact h ▸ ih h2
          | ok csr => simp [genericCharts, h1, h2] at h

/-- C5 counterexample: a run record carrying none of the fixed rent and
fund stat keys does not raise any lookup failure — the run completes and
the rents chart is rendered from silently substituted empty series. -/
theorem missing_stats_cex :
    isOkE (pipeline exNoFixed) = true
      ∧ rentsChart exNoFixed
          = Chart.line "rents"
              [⟨some "mean_rent_per_area", none, []⟩,
               ⟨some "mean_adjusted_rent_per_area", none, []⟩] true := by
  refine ⟨rfl, rfl⟩

/-- C5 as amended: an absent meta neighborhoods mapping raises a KeyError
that aborts the run, and every rendering failure is such a lookup failure
(the neighborhoods mapping or a meta entry's name field); absent stat keys
never raise — the defaultdict substitutes empty series for them. -/
theorem key_errors (out : OutputJson) :
    (out.metaNeighborhoods = none → pipeline out = .error (.keyError "neighborhoods"))
  ∧ (∀ e, pipeline out = .error e →
      e = Err.keyError "neighborhoods" ∨ e = Err.keyError "name") := by
  constructor
  · intro hm
    cases hg : genericCharts out.metaNeighborhoods (neighbsOf out) (landlordsOf out)
        (statsAfterDel out) with
    | error e =>
        have he := genericCharts_error hg
        rw [hm] at he
        simp at he
        simp [pipeline, hg, he]
    | ok gen =>
        rw [hm] at hg
        simp [pipeline, hm, hg]
  · intro e h
    cases hg : genericCharts out.metaNeighborhoods (neighbsOf out) (landlordsOf out)
        (statsAfterDel out) with
    | error e1 =>
        simp [pipeline, hg] at h
        rcases h ▸ genericCharts_error hg with h1 | ⟨_, h1⟩
        · exact Or.inl h1
        · exact Or.inr h1
    | ok gen =>
        cases hm : out.metaNeighborhoods with
        | none =>
            rw [hm] at hg
            simp [pipeline, hm, hg] at h
            exact Or.inl h.symm
        | some m =>
            rw [hm] at hg
            simp [pipeline, hm, hg] at h

/-- Witness for the amended C5: exW without its meta neighborhoods. -/
theorem key_errors_witness :
    pipeline exNoMetaN = .error (.keyError "neighborhoods") :=
  (key_errors exNoMetaN).1 rfl

/-! ## Solo-chart selection -/

theorem str_append_ne {s t : String} (h : s.length ≠ t.length) (k : String) :
    k ++ s ≠ k ++ t := by
  intro he
  apply h
  have h2 := congrArg String.length he
  simp only [String.length_append] at h2
  omega

/-- C6: for a remaining stat key, the solo chart key.png is produced iff
the key has neither breakdown, and then it is exactly the unlabelled
legendless line chart; a key with both breakdowns yields exactly the
key_neighb.png and key_landlords.png charts and no solo chart. -/
theorem solo_iff {metaN : Option (Dict (Dict String))} {n l : Dict (Dict (List Int))}
    {k : String} {vals : List Int} {cs : List (String × Chart)}
    (h : chartsForKey metaN n l k vals = .ok cs) :
    ((alFind n k = none ∧ alFind l k = none)
        ↔ cs = [(k ++ ".png", Chart.line k [⟨none, none, vals⟩] false)])
  ∧ ((alFind n k).isSome ∧ (alFind l k).isSome →
      cs.map Prod.fst = [k ++ "_neighb.png", k ++ "_landlords.png"])
  ∧ ((k ++ ".png") ∈ cs.map Prod.fst ↔ (alFind n k = none ∧ alFind l k = none)) := by
  have hne1 : k ++ "_neighb.png" ≠ k ++ ".png" := str_append_ne (by decide) k
  have hne2 : k ++ "_landlords.png" ≠ k ++ ".png" := str_append_ne (by decide) k
  obtain ⟨np, hnp, hcs⟩ := chartsForKey_ok_inv h
  subst hcs
  rcases neighbPart_ok_inv hnp with ⟨hf, h0⟩ | ⟨inner, c, hf, hc, h0⟩ <;>
    subst h0 <;>
    cases hl : alFind l k <;>
    simp [landlordPart, soloPart, hf, hl, hne1, hne2, Ne.symm hne1, Ne.symm hne2]

/-- Witness for C6: a key with no breakdowns yields exactly its solo chart. -/
theorem solo_iff_witness :
    ("x" ++ ".png")
      ∈ ([("x.png", Chart.line "x" [⟨none, none, [(1 : Int)]⟩] false)].map Prod.fst) :=
  ((@solo_iff (some []) [] [] "x" [1]
      [("x.png", Chart.line "x" [⟨none, none, [1]⟩] false)] rfl).2.2).mpr ⟨rfl, rfl⟩

/-- C7: in a landlord-breakdown chart, whatever position a landlord entry
occupies in the input, the line for id -1 carries the label DOMA and the
fixed color, and the line of any other id carries the label Landlord-id. -/
theorem doma_label (k : String) (vals : List Int) (inner : Dict (List Int))
    (id : String) (vs : List Int) (h : (id, vs) ∈ inner) :
    (id = "-1" →
      PlotLine.mk (some "DOMA") (some "#f771b4") vs ∈ (landlordChart k vals inner).lines)
  ∧ (id ≠ "-1" →
      PlotLine.mk (some ("Landlord " ++ id)) none vs ∈ (landlordChart k vals inner).lines) := by
  constructor
  · intro hid
    subst hid
    simp only [landlordChart, Chart.lines]
    apply List.mem_cons_of_mem
    refine List.mem_map.mpr ⟨("-1", vs), h, ?_⟩
    simp [landlordLine]
  · intro hid
    simp only [landlordChart, Chart.lines]
    apply List.mem_cons_of_mem
    refine List.mem_map.mpr ⟨(id, vs), h, ?_⟩
    simp [landlordLine, hid]

/-- Witness for C7: the DOMA line of a concrete two-landlord chart. -/
theorem doma_label_witness :
    PlotLine.mk (some "DOMA") (some "#f771b4") [(7 : Int)]
      ∈ (landlordChart "k" [0] [("-1", [7]), ("2", [8])]).lines :=
  (doma_label "k" [0] [("-1", [7]), ("2", [8])] "-1" [7] (by decide)).1 rfl

/-! ## Scope of min_value -/

theorem statsAfterDel_min_none (out : OutputJson) :
    alFind (statsAfterDel out) "min_value" = none :=
  alFind_alDel_self (statsAfterFund out) "min_value"

theorem chartsForKey_fnames {metaN : Option (Dict (Dict String))}
    {n l : Dict (Dict (List Int))} {k : String} {vals : List Int}
    {cs : List (String × Chart)} (h : chartsForKey metaN n l k vals = .ok cs) :
    ∀ p ∈ cs, p.1 = k ++ ".png" ∨ p.1 = k ++ "_neighb.png" ∨ p.1 = k ++ "_landlords.png" := by
  obtain ⟨np, hnp, hcs⟩ := chartsForKey_ok_inv h
  subst hcs
  rcases neighbPart_ok_inv hnp with ⟨hf, h0⟩ | ⟨inner, c, hf, hc, h0⟩ <;>
    subst h0 <;>
    cases hl : alFind l k <;>
    intro p hp <;>
    simp [landlordPart, soloPart, hf, hl] at hp <;>
    first
      | (subst hp; simp)
      | (rcases hp with hp | hp <;> subst hp <;> simp)

theorem genericCharts_sources {metaN : Option (Dict (Dict String))}
    {n l : Dict (Dict (List Int))} :
    ∀ {s : Dict (List Int)} {gcs : List (String × Chart)},
      genericCharts metaN n l s = .ok gcs →
      ∀ p ∈ gcs, ∃ k vals, (k, vals) ∈ s ∧
        (p.1 = k ++ ".png" ∨ p.1 = k ++ "_neighb.png" ∨ p.1 = k ++ "_landlords.png") := by
  intro s
  induction s with
  | nil =>
      intro gcs h p hp
      simp [genericCharts] at h
      rw [h] at hp
      simp at hp
  | cons q rest ih =>
      intro gcs h p hp
      cases h1 : chartsForKey metaN n l q.1 q.2 with
      | error e => simp [genericCharts, h1] at h
      | ok cs =>
          cases h2 : genericCharts metaN n l rest with
          | error e => simp [genericCharts, h1, h2] at h
          | ok csr =>
              simp [genericCharts, h1, h2] at h
              rw [← h] at hp
              rcases List.mem_append.mp hp with hp1 | hp2
              · exact ⟨q.1, q.2, List.mem_cons_self q rest, chartsForKey_fnames h1 p hp1⟩
              · obtain ⟨k, vals, hmem, hf⟩ := ih h2 p hp2
                exact ⟨k, vals, List.mem_cons_of_mem _ hmem, hf⟩

/-- C8: min_value is plotted as a labelled series of the DOMA fund chart,
it is removed from stats before the generic loop, and every chart of a
successful run is an init histogram, the rents chart, the fund chart, or a
generic chart belonging to a remaining stat key other than min_value — so
no other chart is rendered for the min_value series. -/
theorem min_value_scope (out : OutputJson) (cs : List (String × Chart))
    (h : pipeline out = .ok cs) :
    ("doma_fund.png", domaChart out) ∈ cs
  ∧ (domaChart out).lines.map PlotLine.label
      = [some "doma_property_fund", some "mean_value", some "min_value"]
  ∧ alFind (statsAfterDel out) "min_value" = none
  ∧ ∀ p ∈ cs, p ∈ initCharts out.init
      ∨ p = ("rents.png", rentsChart out)
      ∨ p = ("doma_fund.png", domaChart out)
      ∨ ∃ k vals, (k, vals) ∈ statsAfterDel out ∧ k ≠ "min_value"
          ∧ (p.1 = k ++ ".png" ∨ p.1 = k ++ "_neighb.png" ∨ p.1 = k ++ "_landlords.png") := by
  obtain ⟨gen, hg, _, hcs⟩ := pipeline_ok h
  subst hcs
  refine ⟨?_, ?_, statsAfterDel_min_none out, ?_⟩
  · exact List.mem_append.mpr (Or.inr (List.mem_cons_of_mem _ (List.mem_cons_self _ _)))
  · have hx := fixedSeries_labels fundKeys (statsAfterRents out)
    simpa [domaChart, Chart.lines, fundKeys] using hx
  · intro p hp
    rcases List.mem_append.mp hp with hp1 | hp2
    · exact Or.inl hp1
    · rcases List.mem_cons.mp hp2 with hp3 | hp4
      · exact Or.inr (Or.inl hp3)
      · rcases List.mem_cons.mp hp4 with hp5 | hp6
        · exact Or.inr (Or.inr (Or.inl hp5))
        · obtain ⟨k, vals, hmem, hf⟩ := genericCharts_sources hg p hp6
          refine Or.inr (Or.inr (Or.inr ⟨k, vals, hmem, ?_, hf⟩))
          intro hk
          subst hk
          have hsome := alFind_isSome_of_mem hmem
          rw [statsAfterDel_min_none out] at hsome
          simp at hsome

/-- Witness for C8 at the concrete run exW. -/
theorem min_value_scope_witness :
    ("doma_fund.png", domaChart exW) ∈ (pipeline exW).toOption.getD [] :=
  (min_value_scope exW ((pipeline exW).toOption.getD []) rfl).1

/-! ## Re-running make_plots -/

/-- C9: when make_plots succeeds on a directory, running it again after
removing plots/ produces the identical ordered filename list, and running
it again without removing plots/ fails with the already-exists error. -/
theorem rerun_behavior (d : Dir) (fns : List String) (d1 : Dir)
    (h : makePlots d = (.ok fns, d1)) :
    (makePlots { d1 with plotsExists := false }).1 = .ok fns
  ∧ (makePlots d1).1 = .error .alreadyExists := by
  obtain ⟨oj, cy, pe⟩ := d
  cases pe with
  | true => simp [makePlots] at h
  | false =>
      cases oj with
      | none => simp [makePlots] at h
      | some o =>
          cases o with
          | none => simp [makePlots] at h
          | some out =>
              cases cy with
              | none => simp [makePlots] at h
              | some c =>
                  cases c with
                  | none => simp [makePlots] at h
                  | some cfg =>
                      cases hpl : pipeline out with
                      | error e => simp [makePlots, hpl] at h
                      | ok charts =>
                          simp [makePlots, hpl] at h
                          obtain ⟨h1, h2⟩ := h
                          rw [← h2]
                          constructor
                          · rw [← h1]
                            simp [makePlots, hpl]
                          · simp [makePlots]

/-- Witness for C9 at the concrete fully-populated directory. -/
theorem rerun_behavior_witness :
    (makePlots ((makePlots exDirCfg).2)).1 = .error .alreadyExists :=
  (rerun_behavior exDirCfg ((makePlots exDirCfg).1.toOption.getD [])
    (makePlots exDirCfg).2 rfl).2

/-- C10: make_plots creates plots/ before opening output.json, so on a
fresh directory whose output.json is missing or malformed the call fails
with the corresponding IO or format error while still having created
plots/, and an immediate retry fails with the already-exists error. -/
theorem mkdir_first (d : Dir) (hp : d.plotsExists = false)
    (ho : d.outputJson = none ∨ d.outputJson = some none) :
    (makePlots d).2 = { d with plotsExists := true }
  ∧ (d.outputJson = none → (makePlots d).1 = .error (.ioMissing "output.json"))
  ∧ (d.outputJson = some none → (makePlots d).1 = .error (.formatError "output.json"))
  ∧ (makePlots ((makePlots d).2)).1 = .error .alreadyExists := by
  obtain ⟨oj, cy, pe⟩ := d
  have hp1 : pe = false := hp
  subst hp1
  rcases ho with ho | ho
  · have ho1 : oj = none := ho
    subst ho1
    exact ⟨rfl, fun _ => rfl, fun hc => absurd hc (by simp), rfl⟩
  · have ho1 : oj = some none := ho
    subst ho1
    exact ⟨rfl, fun hc => absurd hc (by simp), fun _ => rfl, rfl⟩

/-- Witness for C10 at a fresh directory with no output.json at all. -/
theorem mkdir_first_witness :
    (makePlots ((makePlots (Dir.mk none none false)).2)).1 = .error .alreadyExists :=
  (mkdir_first (Dir.mk none none false) rfl (Or.inl rfl)).2.2.2

end DomaPlot
